import Mathlib

/-!
Verification development for the SaverX download orchestrator.

The definitions below are a shallow embedding of the download core of the
repository: `desktop_app.py` (the Tkinter orchestrator: `start_download`,
`_download_worker` with its `progress_hook`, `_stop_download`, the
event-queue dispatch `_flush_logs`) and `main.py` (`is_youtube_url`,
`download_video_yt_dlp`).

Modelling conventions:
* Python strings are `String`; byte counts are `Nat` (the source holds
  non-negative integers; `int(x / y * 100)` on non-negative values is the
  floor, embedded as exact `Nat` division).
* Python `None`-able values are `Option`; Python truthiness of an optional
  number (`if total:` where `0` and `None` are falsy) is `truthyNat`.
* `threading.Event` is its `is_set` flag; a `DownloadItem.cancel_event`
  that is `None` in Python is `Option.none` here.
* The worker's interaction with the external fetcher (`yt_dlp`) is an
  explicit script: the sequence of progress-hook payload dicts, each paired
  with the value the concurrent cancellation check
  (`itm and itm.cancel_event and itm.cancel_event.is_set()`) observes at
  that tick, followed by the fetch outcome (a final file path, or the
  exception message the fetch call raises).
* Queues (`event_q`, `log_q`) are lists appended at the tail and drained
  from the head, which is the FIFO order of `queue.Queue`.
* Tk widget manipulation, timestamps, and the filesystem gallery are
  outside the model.
-/

namespace SaverX

/-- Python `sub in s` substring test on character lists. -/
def listContains (sub : List Char) : List Char → Bool
  | [] => List.isEmpty sub
  | c :: t => List.isPrefixOf sub (c :: t) || listContains sub t

/-- Python `sub in s` substring test on strings. -/
def strContains (s sub : String) : Bool :=
  listContains sub.data s.data

/-- Test whether `p` starts the string `s` (used to recognise the worker's
`'خطأ: ' + message` failure texts). -/
def strStartsWith (p s : String) : Bool :=
  List.isPrefixOf p.data s.data

/-- ASCII whitespace, the characters `str.strip()` removes (restricted to
the ASCII range; the source never submits non-ASCII whitespace). -/
def isPySpace (c : Char) : Bool :=
  c = ' ' || c = '\t' || c = '\n' || c = '\r' || c = '\x0b' || c = '\x0c'

/-- Python `str.strip()`: drop whitespace from both ends. -/
def pyStrip (s : String) : String :=
  ⟨((s.data.dropWhile isPySpace).reverse.dropWhile isPySpace).reverse⟩

/-- Python truthiness of an optional number: `None` and `0` are falsy. -/
def truthyNat : Option Nat → Bool
  | some n => n != 0
  | none => false

/-- Python `a or b` on optional numbers, as in
`d.get('total_bytes') or d.get('total_bytes_estimate')`. -/
def pyOr (a b : Option Nat) : Option Nat :=
  if truthyNat a then a else b

/-- The fields of the yt-dlp progress dict `d` that `progress_hook` reads. -/
structure HookDict where
  status : String
  total_bytes : Option Nat
  total_bytes_estimate : Option Nat
  downloaded_bytes : Nat
  speed_str : String
  eta : Option Nat
deriving DecidableEq, Repr

/-- The tuples `_download_worker` puts on `event_q`
(`('add', id, title)`, `('progress', id, percent, speed, eta)`,
`('status', id, text)`, `('done', id, filepath)`). -/
inductive Event where
  | add (dlid : Nat) (title : String)
  | progress (dlid : Nat) (percent : Nat) (speed : String) (eta : Option Nat)
  | status (dlid : Nat) (text : String)
  | done (dlid : Nat) (filepath : String)
deriving DecidableEq, Repr

/-- Result of one `progress_hook` call: events put on `event_q`, or the
exception it raises to abort yt-dlp. -/
inductive HookResult where
  | ok (events : List Event)
  | raised (msg : String)
deriving DecidableEq, Repr

/-- `progress_hook` from `_download_worker` (desktop_app.py lines 501-521).
`cancelSet` is the value of the live check
`itm and itm.cancel_event and itm.cancel_event.is_set()` at this tick. -/
def progress_hook (dlid : Nat) (cancelSet : Bool) (d : HookDict) : HookResult :=
  if d.status = "downloading" then
    let total := pyOr d.total_bytes d.total_bytes_estimate
    let perc : Nat := if truthyNat total then d.downloaded_bytes * 100 / total.getD 1 else 0
    if cancelSet then HookResult.raised "USER_CANCELLED"
    else HookResult.ok [Event.progress dlid perc d.speed_str d.eta]
  else if d.status = "finished" then
    HookResult.ok [Event.status dlid "finalizing"]
  else
    HookResult.ok []

/-- Run the progress hooks of a fetch in order; a raised exception aborts
the remaining ticks and propagates its message (second component). -/
def runHooks (dlid : Nat) : List (HookDict × Bool) → List Event × Option String
  | [] => ([], none)
  | (d, c) :: rest =>
    match progress_hook dlid c d with
    | HookResult.raised m => ([], some m)
    | HookResult.ok evs =>
      let r := runHooks dlid rest
      (evs ++ r.1, r.2)

/-- How the fetch call itself ends when no hook raised: a final file path
from `extract_info`/`prepare_filename`, or an exception with message. -/
inductive FetchOutcome where
  | success (filepath : String)
  | error (msg : String)
deriving DecidableEq, Repr

/-- One complete interaction of the worker with the external fetcher. -/
structure FetchScript where
  ticks : List (HookDict × Bool)
  outcome : FetchOutcome
deriving DecidableEq, Repr

/-- The worker's `except` handler (desktop_app.py lines 537-545): the event
it publishes for exception message `m`, where `cancelAtHandler` is the value
of `self.downloads.get(dlid) and ... cancel_event.is_set()` when the
handler runs. -/
def handler_event (dlid : Nat) (m : String) (cancelAtHandler : Bool) : Event :=
  if strContains m "USER_CANCELLED" || cancelAtHandler then
    Event.status dlid "أُلغي"
  else
    Event.status dlid ("خطأ: " ++ m)

/-- `_download_worker` (desktop_app.py lines 498-547): the sequence of
events it puts on `event_q`, as a function of the fetch script and the
cancellation flag observed by the `except` handler. -/
def download_worker (dlid : Nat) (script : FetchScript) (cancelAtHandler : Bool) : List Event :=
  let r := runHooks dlid script.ticks
  match r.2 with
  | some m => r.1 ++ [handler_event dlid m cancelAtHandler]
  | none =>
    match script.outcome with
    | FetchOutcome.success fp => r.1 ++ [Event.done dlid fp]
    | FetchOutcome.error m => r.1 ++ [handler_event dlid m cancelAtHandler]

/-- The `DownloadItem` dataclass of desktop_app.py (widgets and the thread
handle are UI/runtime objects outside the model; `cancel_event` is the
`is_set` state of the item's `threading.Event`, `none` when the Python
field is `None`). -/
structure DownloadItem where
  id : Nat
  title : String
  url : String
  status : String
  progress : Nat
  speed : String
  eta : Option Nat
  filepath : String
  cancelEvent : Option Bool
deriving DecidableEq, Repr

/-- `self.downloads`, an insertion-ordered dict from id to item. -/
abbrev Registry := List (Nat × DownloadItem)

/-- `self.downloads.get(dlid)`. -/
def getItem (r : Registry) (k : Nat) : Option DownloadItem :=
  (r.find? (fun p => p.1 == k)).map (fun p => p.2)

/-- In-place mutation of the item stored under `k` (a no-op when absent,
like the guarded `item = self.downloads.get(dlid); if not item: return`). -/
def setItem (r : Registry) (k : Nat) (f : DownloadItem → DownloadItem) : Registry :=
  r.map (fun p => if p.1 = k then (p.1, f p.2) else p)

/-- The `event_q` dispatch in `_flush_logs` (desktop_app.py lines 340-362):
how one drained event mutates the downloads registry
(`_add_download_row`, `_update_download_row`, `_set_download_status`,
`_set_download_done`; widget updates elided). -/
def applyEvent (r : Registry) : Event → Registry
  | Event.add dlid title =>
    setItem r dlid (fun it =>
      { it with filepath := "", status := "downloading", progress := 0, title := title })
  | Event.progress dlid percent speed eta =>
    setItem r dlid (fun it => { it with progress := percent, speed := speed, eta := eta })
  | Event.status dlid text =>
    setItem r dlid (fun it => { it with status := text })
  | Event.done dlid fp =>
    setItem r dlid (fun it => { it with status := "done", filepath := fp })

/-- The orchestrator state: registry, event queue, log queue, the id
counter `self._download_counter`, and the ids whose worker thread has been
started. -/
structure AppState where
  downloads : Registry
  eventQ : List Event
  logQ : List String
  started : List Nat
  counter : Nat
deriving DecidableEq, Repr

/-- What `start_download` reports back synchronously: the invalid-input
message box, or the id of the job it registered. -/
inductive SubmitResult where
  | invalidInput
  | started (dlid : Nat)
deriving DecidableEq, Repr

/-- `start_download` (desktop_app.py lines 364-381). -/
def start_download (s : AppState) (rawUrl : String) : AppState × SubmitResult :=
  let url := pyStrip rawUrl
  if url = "" then
    (s, SubmitResult.invalidInput)
  else
    let dlid := s.counter
    let item : DownloadItem :=
      { id := dlid, title := "قيد التحضير...", url := url, status := "pending",
        progress := 0, speed := "", eta := none, filepath := "", cancelEvent := some false }
    ({ s with
        counter := s.counter + 1,
        downloads := s.downloads ++ [(dlid, item)],
        eventQ := s.eventQ ++ [Event.add dlid item.title],
        logQ := s.logQ ++ ["بدء التحضير للتحميل..."],
        started := s.started ++ [dlid] },
     SubmitResult.started dlid)

/-- `_stop_download` (desktop_app.py lines 452-470): signal the item's
cancellation token (creating a signalled one when the field is `None`) and
log; nothing is put on `event_q` (widget updates elided). -/
def stop_download (s : AppState) (dlid : Nat) : AppState :=
  match getItem s.downloads dlid with
  | none => s
  | some _ =>
    { s with
        downloads := setItem s.downloads dlid (fun it => { it with cancelEvent := some true }),
        logQ := s.logQ ++ ["تم إيقاف التحميل بواسطة المستخدم"] }

/-- The spec's event vocabulary. -/
inductive EKind where
  | added
  | progress
  | statusChanged
  | completed
  | failed
  | cancelled
deriving DecidableEq, Repr

/-- Classify a concrete queue tuple as one of the spec's event kinds:
`done` tuples are `Completed`; status text `'خطأ: ' + m` (the worker's
failure report) is `Failed`; status text `'أُلغي'` is `Cancelled`; any
other status text (the worker only emits `'finalizing'`) is
`StatusChanged`. -/
def eventKind : Event → EKind
  | Event.add _ _ => EKind.added
  | Event.progress _ _ _ _ => EKind.progress
  | Event.status _ t =>
    if strStartsWith "خطأ: " t then EKind.failed
    else if t = "أُلغي" then EKind.cancelled
    else EKind.statusChanged
  | Event.done _ _ => EKind.completed

def isProgKind : EKind → Bool
  | EKind.progress => true
  | _ => false

def isTermKind : EKind → Bool
  | EKind.completed => true
  | EKind.failed => true
  | EKind.cancelled => true
  | _ => false

/-- An event is terminal when its kind is `Completed`, `Failed` or
`Cancelled`. -/
def isTerminalEvent (e : Event) : Bool :=
  isTermKind (eventKind e)

/-- An event is a cancellation report. -/
def isCancelledEvent (e : Event) : Bool :=
  eventKind e = EKind.cancelled

/-- An event is a failure report. -/
def isFailedEvent (e : Event) : Bool :=
  eventKind e = EKind.failed

/-- After the optional `StatusChanged`, at most one terminal kind may
remain. -/
def patternEnd : List EKind → Bool
  | [] => true
  | [k] => isTermKind k
  | _ => false

/-- After the `Progress` run: an optional `StatusChanged`, then
`patternEnd`. -/
def patternAfterProgress : List EKind → Bool
  | EKind.statusChanged :: t => patternEnd t
  | t => patternEnd t

/-- Membership in the spec's per-job pattern language: the kinds are a
subsequence of `Added, Progress*, StatusChanged?, (Completed | Failed |
Cancelled)` (an optional `Added` first, then a run of `Progress`, then an
optional `StatusChanged`, then at most one terminal kind, nothing after). -/
def patternOk : List EKind → Bool
  | EKind.added :: t => patternAfterProgress (t.dropWhile isProgKind)
  | t => patternAfterProgress (t.dropWhile isProgKind)

/-- The percent values of the `progress` events for job `dlid`, in queue
order. -/
def progressPercents (dlid : Nat) : List Event → List Nat
  | [] => []
  | Event.progress d p _ _ :: rest =>
    if d = dlid then p :: progressPercents dlid rest else progressPercents dlid rest
  | _ :: rest => progressPercents dlid rest

/-- The downloaded-bytes values of the downloading ticks the hook actually
processes (a signalled cancellation check aborts the rest). -/
def downloadingBytes : List (HookDict × Bool) → List Nat
  | [] => []
  | (d, c) :: rest =>
    if d.status = "downloading" then
      if c then [] else d.downloaded_bytes :: downloadingBytes rest
    else downloadingBytes rest

/-- `YOUTUBE_ALLOWED` from main.py (the Google-Play-safe build). -/
def YOUTUBE_ALLOWED : Bool := false

/-- `is_youtube_url` (main.py lines 62-64). -/
def is_youtube_url (url : String) : Bool :=
  strContains url "youtube.com" || strContains url "youtu.be"

/-- How the yt-dlp calls inside `download_video_yt_dlp` end. -/
inductive FetchResult2 where
  | path (p : String)
  | downloadError (msg : String)
  | otherError (msg : String)
deriving DecidableEq, Repr

/-- `str(e).split('\n')[-1].strip()` from the DownloadError handler. -/
def lastLineStripped (s : String) : String :=
  pyStrip ((s.splitOn "\n").getLastD "")

/-- `download_video_yt_dlp` (main.py lines 67-109): the returned final
path (`none` on failure) and the messages sent to `status_cb` in order
(hook-relayed status lines belong to the external fetcher and are
elided). -/
def download_video_yt_dlp (url : String) (fetch : FetchResult2) :
    Option String × List String :=
  if !YOUTUBE_ALLOWED && is_youtube_url url then
    (none, ["فشل: التحميل من يوتيوب غير مسموح به في هذه النسخة."])
  else
    match fetch with
    | FetchResult2.path p =>
      (some p, ["جاري التحضير للتحميل...", "اكتمل التحميل."])
    | FetchResult2.downloadError m =>
      (none, ["جاري التحضير للتحميل...", "فشل التحميل: " ++ lastLineStripped m])
    | FetchResult2.otherError m =>
      (none, ["جاري التحضير للتحميل...", "خطأ غير متوقع: " ++ m])

/-! ### Helper lemmas -/

theorem isPrefixOf_self_append (l m : List Char) : List.isPrefixOf l (l ++ m) = true := by
  induction l with
  | nil => cases m <;> rfl
  | cons a t ih => simp [List.isPrefixOf, ih]

theorem strStartsWith_self_append (p m : String) : strStartsWith p (p ++ m) = true := by
  cases p with
  | mk pd =>
    cases m with
    | mk md => exact isPrefixOf_self_append pd md

theorem eventKind_finalizing (d : Nat) :
    eventKind (Event.status d "finalizing") = EKind.statusChanged := by
  rfl

theorem eventKind_cancelled_text (d : Nat) :
    eventKind (Event.status d "أُلغي") = EKind.cancelled := by
  rfl

theorem eventKind_error_text (d : Nat) (m : String) :
    eventKind (Event.status d ("خطأ: " ++ m)) = EKind.failed := by
  simp [eventKind, strStartsWith_self_append]

theorem handler_event_terminal (dlid : Nat) (m : String) (c : Bool) :
    isTerminalEvent (handler_event dlid m c) = true := by
  unfold handler_event
  split
  · rfl
  · simp [isTerminalEvent, eventKind_error_text, isTermKind]

theorem progress_hook_shape (dlid : Nat) (c : Bool) (d : HookDict) :
    progress_hook dlid c d = HookResult.raised "USER_CANCELLED" ∨
    ∃ evs, progress_hook dlid c d = HookResult.ok evs ∧
      (evs.map eventKind = [] ∨ evs.map eventKind = [EKind.progress] ∨
       evs.map eventKind = [EKind.statusChanged]) := by
  unfold progress_hook
  split
  · split
    · exact Or.inl rfl
    · exact Or.inr ⟨_, rfl, Or.inr (Or.inl rfl)⟩
  · split
    · exact Or.inr ⟨_, rfl, Or.inr (Or.inr (by simp [eventKind_finalizing]))⟩
    · exact Or.inr ⟨_, rfl, Or.inl rfl⟩

theorem hook_events_no_terminal (dlid : Nat) (c : Bool) (d : HookDict) (evs : List Event)
    (h : progress_hook dlid c d = HookResult.ok evs) :
    evs.countP isTerminalEvent = 0 := by
  unfold progress_hook at h
  split at h
  · split at h
    · cases h
    · cases h
      rfl
  · split at h
    · cases h
      rfl
    · cases h
      rfl

theorem runHooks_no_terminal (dlid : Nat) (ts : List (HookDict × Bool)) :
    ((runHooks dlid ts).1).countP isTerminalEvent = 0 := by
  induction ts with
  | nil => rfl
  | cons p rest ih =>
    obtain ⟨d, c⟩ := p
    unfold runHooks
    cases hp : progress_hook dlid c d with
    | raised m => rfl
    | ok evs =>
      simp only [List.countP_append, ih, hook_events_no_terminal dlid c d evs hp]

theorem runHooks_raised_msg (dlid : Nat) (ts : List (HookDict × Bool)) :
    (runHooks dlid ts).2 = none ∨ (runHooks dlid ts).2 = some "USER_CANCELLED" := by
  induction ts with
  | nil => exact Or.inl rfl
  | cons p rest ih =>
    obtain ⟨d, c⟩ := p
    unfold runHooks
    cases hp : progress_hook dlid c d with
    | raised m =>
      rcases progress_hook_shape dlid c d with hr | ⟨evs, he, _⟩
      · rw [hp] at hr
        cases hr
        exact Or.inr rfl
      · rw [hp] at he; cases he
    | ok evs => exact ih

/-! ### C1 -/

/-- Claim C1: for every fetch script and every value of the cancellation
flag at the error handler, `_download_worker` publishes exactly one
terminal event (a `done` event, or a cancelled status, or a failed
status) on `event_q`. -/
theorem worker_exactly_one_terminal_event (dlid : Nat) (script : FetchScript) (c : Bool) :
    (download_worker dlid script c).countP isTerminalEvent = 1 := by
  unfold download_worker
  cases hr : (runHooks dlid script.ticks).2 with
  | some m =>
    simp [hr, List.countP_append, runHooks_no_terminal, handler_event_terminal,
      List.countP_cons]
  | none =>
    cases script.outcome with
    | success fp =>
      simp [hr, List.countP_append, runHooks_no_terminal, List.countP_cons,
        isTerminalEvent, eventKind, isTermKind]
    | error m =>
      simp [hr, List.countP_append, runHooks_no_terminal, handler_event_terminal,
        List.countP_cons]

/-! ### Registry lemmas -/

theorem getItem_setItem (r : Registry) (k : Nat) (f : DownloadItem → DownloadItem) :
    getItem (setItem r k f) k = (getItem r k).map f := by
  induction r with
  | nil => rfl
  | cons p rest ih =>
    obtain ⟨k2, it⟩ := p
    by_cases h : k2 = k
    · subst h
      simp [getItem, setItem, List.find?_cons_of_pos]
    · have hb : (k2 == k) = false := by simp [h]
      simp only [setItem, List.map_cons, if_neg h]
      simp only [getItem, List.find?_cons_of_neg, hb, Bool.false_eq_true,
        not_false_eq_true] at ih ⊢
      exact ih

theorem getItem_setItem_ne (r : Registry) (k k2 : Nat) (f : DownloadItem → DownloadItem)
    (h : k ≠ k2) : getItem (setItem r k2 f) k = getItem r k := by
  induction r with
  | nil => rfl
  | cons p rest ih =>
    obtain ⟨k3, it⟩ := p
    by_cases h3 : k3 = k2
    · subst h3
      have hb : (k3 == k) = false := by simp [Ne.symm h]
      simp [getItem, setItem, List.find?_cons_of_neg, hb] at ih ⊢
      exact ih
    · simp only [setItem, List.map_cons, if_neg h3]
      by_cases h4 : k3 = k
      · subst h4
        simp [getItem, List.find?_cons_of_pos]
      · have hb : (k3 == k) = false := by simp [h4]
        simp only [getItem, List.find?_cons_of_neg, hb, Bool.false_eq_true,
          not_false_eq_true] at ih ⊢
        exact ih

theorem getItem_setItem_isSome (r : Registry) (k k2 : Nat) (f : DownloadItem → DownloadItem) :
    (getItem (setItem r k2 f) k).isSome = (getItem r k).isSome := by
  by_cases h : k = k2
  · subst h
    rw [getItem_setItem]
    cases getItem r k <;> rfl
  · rw [getItem_setItem_ne r k k2 f h]

theorem getItem_applyEvent_isSome (r : Registry) (e : Event) (k : Nat) :
    (getItem (applyEvent r e) k).isSome = (getItem r k).isSome := by
  cases e <;> simp [applyEvent, getItem_setItem_isSome]

theorem getItem_foldl_applyEvent_isSome (evs : List Event) (r : Registry) (k : Nat) :
    (getItem (List.foldl applyEvent r evs) k).isSome = (getItem r k).isSome := by
  induction evs generalizing r with
  | nil => rfl
  | cons e rest ih =>
    rw [List.foldl_cons, ih, getItem_applyEvent_isSome]

theorem cancelled_is_terminal (e : Event) (h : isCancelledEvent e = true) :
    isTerminalEvent e = true := by
  unfold isCancelledEvent at h
  rw [decide_eq_true_eq] at h
  unfold isTerminalEvent
  rw [h]
  rfl

theorem failed_is_terminal (e : Event) (h : isFailedEvent e = true) :
    isTerminalEvent e = true := by
  unfold isFailedEvent at h
  rw [decide_eq_true_eq] at h
  unfold isTerminalEvent
  rw [h]
  rfl

theorem countP_zero_of_imp (p q : Event → Bool) (l : List Event)
    (hpq : ∀ e, p e = true → q e = true) (h : l.countP q = 0) : l.countP p = 0 := by
  rw [List.countP_eq_zero] at h ⊢
  intro a ha hpa
  exact h a ha (hpq a hpa)

/-! ### C2 -/

/-- Claim C2: when the fetch call completes without raising (no hook tick
raised, the outcome is a final path), the worker publishes the `done`
event with that path even though the cancellation flag is already set at
the handler: no cancelled status is ever published, and draining the queue
marks the registry entry `done` with the file path. -/
theorem late_cancel_completion_wins (dlid : Nat) (script : FetchScript) (fp : String)
    (r : Registry) (it : DownloadItem)
    (hnr : (runHooks dlid script.ticks).2 = none)
    (hout : script.outcome = FetchOutcome.success fp)
    (hreg : getItem r dlid = some it) :
    download_worker dlid script true = (runHooks dlid script.ticks).1 ++ [Event.done dlid fp] ∧
    (download_worker dlid script true).countP isCancelledEvent = 0 ∧
    (getItem (List.foldl applyEvent r (download_worker dlid script true)) dlid).map
      (fun j => (j.status, j.filepath)) = some ("done", fp) := by
  have hmain : download_worker dlid script true =
      (runHooks dlid script.ticks).1 ++ [Event.done dlid fp] := by
    unfold download_worker
    simp [hnr, hout]
  refine ⟨hmain, ?_, ?_⟩
  · rw [hmain, List.countP_append]
    have h1 : ((runHooks dlid script.ticks).1).countP isCancelledEvent = 0 :=
      countP_zero_of_imp _ _ _ cancelled_is_terminal (runHooks_no_terminal dlid script.ticks)
    rw [h1]
    rfl
  · rw [hmain, List.foldl_append]
    have hs : (getItem (List.foldl applyEvent r (runHooks dlid script.ticks).1) dlid).isSome = true := by
      rw [getItem_foldl_applyEvent_isSome, hreg]
      rfl
    obtain ⟨j, hj⟩ := Option.isSome_iff_exists.mp hs
    simp only [List.foldl_cons, List.foldl_nil, applyEvent]
    rw [getItem_setItem, hj]
    rfl

/-- Witness for C2 at a concrete one-tick successful fetch with the
cancellation flag set at the handler. -/
theorem late_cancel_completion_wins_witness :
    download_worker 1
        ⟨[(⟨"downloading", some 1000, none, 1000, "1MiB/s", some 0⟩, false)],
         FetchOutcome.success "/tmp/v1.mp4"⟩ true =
      (runHooks 1 [(⟨"downloading", some 1000, none, 1000, "1MiB/s", some 0⟩, false)]).1 ++
        [Event.done 1 "/tmp/v1.mp4"] ∧
    (download_worker 1
        ⟨[(⟨"downloading", some 1000, none, 1000, "1MiB/s", some 0⟩, false)],
         FetchOutcome.success "/tmp/v1.mp4"⟩ true).countP isCancelledEvent = 0 ∧
    (getItem (List.foldl applyEvent
        [(1, ⟨1, "t", "u", "downloading", 0, "", none, "", some false⟩)]
        (download_worker 1
          ⟨[(⟨"downloading", some 1000, none, 1000, "1MiB/s", some 0⟩, false)],
           FetchOutcome.success "/tmp/v1.mp4"⟩ true)) 1).map
      (fun j => (j.status, j.filepath)) = some ("done", "/tmp/v1.mp4") :=
  late_cancel_completion_wins 1
    ⟨[(⟨"downloading", some 1000, none, 1000, "1MiB/s", some 0⟩, false)],
     FetchOutcome.success "/tmp/v1.mp4"⟩ "/tmp/v1.mp4"
    [(1, ⟨1, "t", "u", "downloading", 0, "", none, "", some false⟩)]
    ⟨1, "t", "u", "downloading", 0, "", none, "", some false⟩
    (by decide) rfl (by decide)

/-! ### C10 -/

/-- Claim C10: in the worker's error handler, an exception whose message
contains `USER_CANCELLED`, or any exception handled while the job's
cancellation check is true, is reported as the cancelled status — never as
a failed status, even for a genuine unrelated fetcher error. -/
theorem error_with_cancel_reported_cancelled (dlid : Nat) (script : FetchScript)
    (c : Bool) (m : String)
    (hnr : (runHooks dlid script.ticks).2 = none)
    (hout : script.outcome = FetchOutcome.error m)
    (hc : strContains m "USER_CANCELLED" = true ∨ c = true) :
    download_worker dlid script c =
      (runHooks dlid script.ticks).1 ++ [Event.status dlid "أُلغي"] ∧
    (download_worker dlid script c).countP isFailedEvent = 0 := by
  have hcond : (strContains m "USER_CANCELLED" || c) = true := by
    rcases hc with hc | hc <;> simp [hc]
  have hmain : download_worker dlid script c =
      (runHooks dlid script.ticks).1 ++ [Event.status dlid "أُلغي"] := by
    unfold download_worker
    simp [hnr, hout, handler_event, hcond]
  refine ⟨hmain, ?_⟩
  rw [hmain, List.countP_append]
  have h1 : ((runHooks dlid script.ticks).1).countP isFailedEvent = 0 :=
    countP_zero_of_imp _ _ _ failed_is_terminal (runHooks_no_terminal dlid script.ticks)
  rw [h1]
  rfl

/-- Witness for C10: a genuine network error handled after the token was
signalled is reported cancelled. -/
theorem error_with_cancel_reported_cancelled_witness :
    download_worker 2
        ⟨[(⟨"downloading", some 100, none, 40, "", none⟩, false)],
         FetchOutcome.error "Connection reset by peer"⟩ true =
      (runHooks 2 [(⟨"downloading", some 100, none, 40, "", none⟩, false)]).1 ++
        [Event.status 2 "أُلغي"] ∧
    (download_worker 2
        ⟨[(⟨"downloading", some 100, none, 40, "", none⟩, false)],
         FetchOutcome.error "Connection reset by peer"⟩ true).countP isFailedEvent = 0 :=
  error_with_cancel_reported_cancelled 2
    ⟨[(⟨"downloading", some 100, none, 40, "", none⟩, false)],
     FetchOutcome.error "Connection reset by peer"⟩ true "Connection reset by peer"
    (by decide) rfl (Or.inr rfl)

/-! ### C3 -/

/-- Claim C3 counterexample: on a progress notification where the total is
unknown (`total_bytes` absent, `total_bytes_estimate` a falsy `0`), the
hook publishes percent `0` instead of leaving the percent at its last
value `40`: the published percents are `[40, 0]`, not `[40, 40]`. -/
theorem unknown_total_resets_percent_cex :
    progressPercents 3 (runHooks 3
      [(⟨"downloading", some 1000, none, 400, "", none⟩, false),
       (⟨"downloading", none, some 0, 600, "", none⟩, false)]).1 = [40, 0] ∧
    ([40, 0] : List Nat) ≠ [40, 40] := by
  decide

/-- Claim C3 amended: on a downloading notification with no cancellation,
when the total (`total_bytes`, else `total_bytes_estimate`) is known and
non-zero the hook publishes `floor(downloaded * 100 / total)`; when the
total is not known it publishes percent `0` (not the last value), still
forwarding the speed and ETA fields. -/
theorem progress_hook_percent_amended (dlid : Nat) (d : HookDict) (t : Nat)
    (hs : d.status = "downloading") :
    (pyOr d.total_bytes d.total_bytes_estimate = some t → t ≠ 0 →
      progress_hook dlid false d =
        HookResult.ok [Event.progress dlid (d.downloaded_bytes * 100 / t) d.speed_str d.eta]) ∧
    (truthyNat (pyOr d.total_bytes d.total_bytes_estimate) = false →
      progress_hook dlid false d =
        HookResult.ok [Event.progress dlid 0 d.speed_str d.eta]) := by
  constructor
  · intro h1 h2
    simp [progress_hook, hs, h1, truthyNat, h2]
  · intro h1
    simp [progress_hook, hs, h1]

/-- Witness for C3 amended: a known-total tick gives `400 * 100 / 1000 =
40`; an unknown-total tick gives `0` with speed and ETA forwarded. -/
theorem progress_hook_percent_amended_witness :
    progress_hook 1 false ⟨"downloading", some 1000, none, 400, "2MiB/s", some 9⟩ =
      HookResult.ok [Event.progress 1 40 "2MiB/s" (some 9)] ∧
    progress_hook 2 false ⟨"downloading", none, none, 500, "3MiB/s", some 7⟩ =
      HookResult.ok [Event.progress 2 0 "3MiB/s" (some 7)] := by
  constructor
  · exact (progress_hook_percent_amended 1 ⟨"downloading", some 1000, none, 400, "2MiB/s", some 9⟩
      1000 rfl).1 rfl (by decide)
  · exact (progress_hook_percent_amended 2 ⟨"downloading", none, none, 500, "3MiB/s", some 7⟩
      1 rfl).2 rfl

/-! ### C4 -/

/-- Claim C4 counterexample: calling `_stop_download` on a job whose
status is already `done` is not a field-preserving no-op — the job's
`cancel_event` field changes from unsignalled to signalled. -/
theorem stop_download_terminal_cex :
    (getItem (stop_download
        ⟨[(1, ⟨1, "t", "u", "done", 100, "", none, "/tmp/a.mp4", some false⟩)],
         [], [], [1], 2⟩ 1).downloads 1).map (fun it => it.cancelEvent) =
      some (some true) ∧
    (⟨1, "t", "u", "done", 100, "", none, "/tmp/a.mp4", some false⟩ :
        DownloadItem).cancelEvent = some false := by
  decide

/-- Claim C4 amended: calling `_stop_download` on a job in a terminal
state raises no error, publishes no event on `event_q`, leaves the job's
status, progress, speed, ETA and file path unchanged and other jobs
untouched — but it is not a complete no-op: it signals the job's
cancellation token. -/
theorem stop_download_terminal_amended (s : AppState) (dlid k : Nat) (it : DownloadItem)
    (hreg : getItem s.downloads dlid = some it)
    (hterm : it.status = "done" ∨ it.status = "أُلغي" ∨ strStartsWith "خطأ: " it.status = true)
    (hk : k ≠ dlid) :
    (stop_download s dlid).eventQ = s.eventQ ∧
    getItem (stop_download s dlid).downloads dlid = some { it with cancelEvent := some true } ∧
    (stop_download s dlid).counter = s.counter ∧
    (stop_download s dlid).started = s.started ∧
    getItem (stop_download s dlid).downloads k = getItem s.downloads k := by
  have hstop : stop_download s dlid =
      { s with
          downloads := setItem s.downloads dlid (fun j => { j with cancelEvent := some true }),
          logQ := s.logQ ++ ["تم إيقاف التحميل بواسطة المستخدم"] } := by
    unfold stop_download
    rw [hreg]
  rw [hstop]
  refine ⟨rfl, ?_, rfl, rfl, ?_⟩
  · show getItem (setItem s.downloads dlid (fun j => { j with cancelEvent := some true })) dlid =
      some { it with cancelEvent := some true }
    rw [getItem_setItem, hreg]
    rfl
  · show getItem (setItem s.downloads dlid (fun j => { j with cancelEvent := some true })) k =
      getItem s.downloads k
    exact getItem_setItem_ne _ k dlid _ hk

/-- Witness for C4 amended at a concrete state holding a done job and an
unrelated downloading job. -/
theorem stop_download_terminal_amended_witness :
    (stop_download
        ⟨[(1, ⟨1, "t", "u", "done", 100, "", none, "/tmp/a.mp4", some false⟩),
          (2, ⟨2, "t2", "u2", "downloading", 5, "", none, "", some false⟩)],
         [], [], [1, 2], 3⟩ 1).eventQ = [] ∧
    getItem (stop_download
        ⟨[(1, ⟨1, "t", "u", "done", 100, "", none, "/tmp/a.mp4", some false⟩),
          (2, ⟨2, "t2", "u2", "downloading", 5, "", none, "", some false⟩)],
         [], [], [1, 2], 3⟩ 1).downloads 1 =
      some { (⟨1, "t", "u", "done", 100, "", none, "/tmp/a.mp4", some false⟩ : DownloadItem)
              with cancelEvent := some true } ∧
    (stop_download
        ⟨[(1, ⟨1, "t", "u", "done", 100, "", none, "/tmp/a.mp4", some false⟩),
          (2, ⟨2, "t2", "u2", "downloading", 5, "", none, "", some false⟩)],
         [], [], [1, 2], 3⟩ 1).counter = 3 ∧
    (stop_download
        ⟨[(1, ⟨1, "t", "u", "done", 100, "", none, "/tmp/a.mp4", some false⟩),
          (2, ⟨2, "t2", "u2", "downloading", 5, "", none, "", some false⟩)],
         [], [], [1, 2], 3⟩ 1).started = [1, 2] ∧
    getItem (stop_download
        ⟨[(1, ⟨1, "t", "u", "done", 100, "", none, "/tmp/a.mp4", some false⟩),
          (2, ⟨2, "t2", "u2", "downloading", 5, "", none, "", some false⟩)],
         [], [], [1, 2], 3⟩ 1).downloads 2 =
      getItem [(1, ⟨1, "t", "u", "done", 100, "", none, "/tmp/a.mp4", some false⟩),
          (2, ⟨2, "t2", "u2", "downloading", 5, "", none, "", some false⟩)] 2 :=
  stop_download_terminal_amended
    ⟨[(1, ⟨1, "t", "u", "done", 100, "", none, "/tmp/a.mp4", some false⟩),
      (2, ⟨2, "t2", "u2", "downloading", 5, "", none, "", some false⟩)],
     [], [], [1, 2], 3⟩ 1 2
    ⟨1, "t", "u", "done", 100, "", none, "/tmp/a.mp4", some false⟩
    (by decide) (Or.inl rfl) (by decide)

/-! ### C5 -/

/-- Claim C5 counterexample: the published percents for a job can
decrease — a known-total tick at 70% followed by an unknown-total tick
publishes `[70, 0]`. -/
theorem progress_percent_decreasing_cex :
    progressPercents 7 (runHooks 7
      [(⟨"downloading", some 1000, none, 700, "", none⟩, false),
       (⟨"downloading", none, none, 800, "", none⟩, false)]).1 = [70, 0] ∧
    ¬ List.Chain' (· ≤ ·) ([70, 0] : List Nat) := by
  constructor
  · decide
  · intro hch
    rw [List.chain'_cons] at hch
    exact absurd hch.1 (by decide)

theorem runHooks_fixed_total (dlid T : Nat) (ts : List (HookDict × Bool))
    (hT : T ≠ 0)
    (h : ∀ p ∈ ts, (p.1).status = "downloading" →
      pyOr (p.1).total_bytes (p.1).total_bytes_estimate = some T) :
    progressPercents dlid (runHooks dlid ts).1 =
      (downloadingBytes ts).map (fun b => b * 100 / T) := by
  induction ts with
  | nil => rfl
  | cons p rest ih =>
    obtain ⟨d, c⟩ := p
    have hrest := ih (fun q hq => h q (List.mem_cons_of_mem _ hq))
    by_cases hd : d.status = "downloading"
    · have htot := h (d, c) (List.mem_cons_self _ _) hd
      cases c
      · have hhook : progress_hook dlid false d =
            HookResult.ok [Event.progress dlid (d.downloaded_bytes * 100 / T) d.speed_str d.eta] := by
          simp [progress_hook, hd, htot, truthyNat, hT]
        simp [runHooks, hhook, downloadingBytes, hd, progressPercents, hrest]
      · have hhook : progress_hook dlid true d = HookResult.raised "USER_CANCELLED" := by
          simp [progress_hook, hd]
        simp [runHooks, hhook, downloadingBytes, hd, progressPercents]
    · by_cases hf : d.status = "finished"
      · have hhook : progress_hook dlid c d = HookResult.ok [Event.status dlid "finalizing"] := by
          simp [progress_hook, hd, hf]
        simp [runHooks, hhook, downloadingBytes, hd, progressPercents, hrest]
      · have hhook : progress_hook dlid c d = HookResult.ok [] := by
          simp [progress_hook, hd, hf]
        simp [runHooks, hhook, downloadingBytes, hd, progressPercents, hrest]

/-- Claim C5 amended: the percents of successive `progress` events for a
job are non-decreasing provided every downloading notification of the run
reports the same known non-zero total and the reported downloaded bytes
are non-decreasing; when the total goes missing on a tick the percent
instead drops to `0`. -/
theorem progress_monotone_with_fixed_total (dlid T : Nat) (ts : List (HookDict × Bool))
    (hT : T ≠ 0)
    (h : ∀ p ∈ ts, (p.1).status = "downloading" →
      pyOr (p.1).total_bytes (p.1).total_bytes_estimate = some T)
    (hmono : List.Chain' (· ≤ ·) (downloadingBytes ts)) :
    List.Chain' (· ≤ ·) (progressPercents dlid (runHooks dlid ts).1) := by
  rw [runHooks_fixed_total dlid T ts hT h]
  rw [List.chain'_map]
  refine hmono.imp ?_
  intro a b hab
  exact Nat.div_le_div_right (Nat.mul_le_mul_right 100 hab)

/-- Witness for C5 amended: three ticks with total `1000` and bytes
`100, 400, 1000` give non-decreasing percents. -/
theorem progress_monotone_with_fixed_total_witness :
    List.Chain' (· ≤ ·) (progressPercents 4 (runHooks 4
      [(⟨"downloading", some 1000, none, 100, "", none⟩, false),
       (⟨"downloading", some 1000, none, 400, "", none⟩, false),
       (⟨"downloading", some 1000, none, 1000, "", none⟩, false)]).1) :=
  progress_monotone_with_fixed_total 4 1000
    [(⟨"downloading", some 1000, none, 100, "", none⟩, false),
     (⟨"downloading", some 1000, none, 400, "", none⟩, false),
     (⟨"downloading", some 1000, none, 1000, "", none⟩, false)]
    (by decide) (by decide)
    (by simp [downloadingBytes, List.chain'_cons, List.chain'_singleton])

/-! ### C6 -/

/-- Claim C6: submitting a URL that strips to the empty string is rejected
synchronously with the invalid-input message box; the state — registry,
event queue, log queue, started workers, id counter — is completely
unchanged. -/
theorem empty_url_rejected (s : AppState) (raw : String) (h : pyStrip raw = "") :
    start_download s raw = (s, SubmitResult.invalidInput) := by
  simp [start_download, h]

/-- Witness for C6 at a whitespace-only submission. -/
theorem empty_url_rejected_witness :
    start_download ⟨[], [], [], [], 1⟩ "   " = (⟨[], [], [], [], 1⟩, SubmitResult.invalidInput) :=
  empty_url_rejected ⟨[], [], [], [], 1⟩ "   " (by decide)

/-! ### C7 -/

theorem getItem_eq_none (r : Registry) (k : Nat) (h : ∀ p ∈ r, p.1 ≠ k) :
    getItem r k = none := by
  unfold getItem
  rw [List.find?_eq_none.mpr]
  · rfl
  · intro p hp
    simp [h p hp]

theorem getItem_append_fresh (r : Registry) (k : Nat) (it : DownloadItem)
    (h : ∀ p ∈ r, p.1 ≠ k) : getItem (r ++ [(k, it)]) k = some it := by
  induction r with
  | nil => simp [getItem, List.find?]
  | cons p rest ih =>
    have hp : p.1 ≠ k := h p (List.mem_cons_self _ _)
    have hb : (p.1 == k) = false := by simp [hp]
    simp only [List.cons_append, getItem, List.find?_cons_of_neg, hb, Bool.false_eq_true,
      not_false_eq_true] at ih ⊢
    exact ih (fun q hq => h q (List.mem_cons_of_mem _ hq))

/-- Claim C7: a successful submission is assigned the current counter
value as its id — fresh (not in the registry), with the counter strictly
increased so ids are strictly increasing and never reused — and
immediately after the call the registry holds that id in state
`pending`. -/
theorem submit_fresh_id_pending (s : AppState) (raw raw2 : String)
    (hs : pyStrip raw ≠ "")
    (hs2 : pyStrip raw2 ≠ "")
    (hinv : ∀ p ∈ s.downloads, p.1 < s.counter) :
    (start_download s raw).2 = SubmitResult.started s.counter ∧
    (start_download s raw).1.counter = s.counter + 1 ∧
    getItem s.downloads s.counter = none ∧
    (getItem (start_download s raw).1.downloads s.counter).map (fun it => it.status) =
      some "pending" ∧
    (∀ p ∈ (start_download s raw).1.downloads, p.1 < (start_download s raw).1.counter) ∧
    (start_download (start_download s raw).1 raw2).2 = SubmitResult.started (s.counter + 1) := by
  have hfresh : ∀ p ∈ s.downloads, p.1 ≠ s.counter :=
    fun p hp => Nat.ne_of_lt (hinv p hp)
  refine ⟨by simp [start_download, hs], by simp [start_download, hs],
    getItem_eq_none s.downloads s.counter hfresh, ?_, ?_, ?_⟩
  · simp only [start_download, if_neg hs]
    rw [getItem_append_fresh s.downloads s.counter _ hfresh]
    rfl
  · intro p hp
    simp only [start_download, if_neg hs] at hp ⊢
    rcases List.mem_append.mp hp with hp | hp
    · exact Nat.lt_succ_of_lt (hinv p hp)
    · rcases List.mem_singleton.mp hp with rfl
      exact Nat.lt_succ_self _
  · simp [start_download, hs, hs2]

/-- Witness for C7: two submissions from a fresh state get ids 1 then 2. -/
theorem submit_fresh_id_pending_witness :
    (start_download ⟨[], [], [], [], 1⟩ "https://example.com/a").2 = SubmitResult.started 1 ∧
    (start_download ⟨[], [], [], [], 1⟩ "https://example.com/a").1.counter = 2 ∧
    getItem ([] : Registry) 1 = none ∧
    (getItem (start_download ⟨[], [], [], [], 1⟩ "https://example.com/a").1.downloads 1).map
      (fun it => it.status) = some "pending" ∧
    (∀ p ∈ (start_download ⟨[], [], [], [], 1⟩ "https://example.com/a").1.downloads,
      p.1 < (start_download ⟨[], [], [], [], 1⟩ "https://example.com/a").1.counter) ∧
    (start_download (start_download ⟨[], [], [], [], 1⟩ "https://example.com/a").1
      "https://example.com/b").2 = SubmitResult.started 2 :=
  submit_fresh_id_pending ⟨[], [], [], [], 1⟩ "https://example.com/a" "https://example.com/b"
    (by decide) (by decide) (by simp)

/-! ### C8 -/

theorem runHooks_append_none (dlid : Nat) (a b : List (HookDict × Bool))
    (h : (runHooks dlid a).2 = none) :
    runHooks dlid (a ++ b) =
      ((runHooks dlid a).1 ++ (runHooks dlid b).1, (runHooks dlid b).2) := by
  induction a with
  | nil => simp [runHooks]
  | cons p rest ih =>
    obtain ⟨d, c⟩ := p
    cases hp : progress_hook dlid c d with
    | raised m =>
      exfalso
      rw [show runHooks dlid ((d, c) :: rest) = ([], some m) by simp [runHooks, hp]] at h
      cases h
    | ok evs =>
      have h2 : (runHooks dlid rest).2 = none := by
        rw [show runHooks dlid ((d, c) :: rest) =
          (evs ++ (runHooks dlid rest).1, (runHooks dlid rest).2) by simp [runHooks, hp]] at h
        exact h
      simp [runHooks, hp, ih h2, List.append_assoc]

theorem runHooks_append_raised (dlid : Nat) (a b : List (HookDict × Bool)) (m : String)
    (h : (runHooks dlid a).2 = some m) :
    runHooks dlid (a ++ b) = runHooks dlid a := by
  induction a with
  | nil => cases h
  | cons p rest ih =>
    obtain ⟨d, c⟩ := p
    cases hp : progress_hook dlid c d with
    | raised m2 => simp [runHooks, hp]
    | ok evs =>
      have h2 : (runHooks dlid rest).2 = some m := by
        rw [show runHooks dlid ((d, c) :: rest) =
          (evs ++ (runHooks dlid rest).1, (runHooks dlid rest).2) by simp [runHooks, hp]] at h
        exact h
      simp [runHooks, hp, ih h2]

theorem runHooks_all_downloading (dlid : Nat) (ts : List (HookDict × Bool))
    (h : ∀ p ∈ ts, (p.1).status = "downloading") :
    ∃ k, ((runHooks dlid ts).1).map eventKind = List.replicate k EKind.progress := by
  induction ts with
  | nil => exact ⟨0, rfl⟩
  | cons p rest ih =>
    obtain ⟨d, c⟩ := p
    have hd : d.status = "downloading" := h (d, c) (List.mem_cons_self _ _)
    obtain ⟨k, hk⟩ := ih (fun q hq => h q (List.mem_cons_of_mem _ hq))
    cases c
    · exact ⟨k + 1, by simp [runHooks, progress_hook, hd, hk, List.replicate_succ, eventKind]⟩
    · exact ⟨0, by simp [runHooks, progress_hook, hd]⟩

theorem runHooks_final_tick (dlid : Nat) (b : List (HookDict × Bool))
    (hb : b = [] ∨ ∃ p, b = [p] ∧ (p.1).status = "finished") :
    ((runHooks dlid b).1).map eventKind = [] ∨
    ((runHooks dlid b).1).map eventKind = [EKind.statusChanged] := by
  rcases hb with rfl | ⟨p, rfl, hp⟩
  · exact Or.inl rfl
  · obtain ⟨d, c⟩ := p
    right
    simp only at hp
    simp [runHooks, progress_hook, hp, eventKind_finalizing]

theorem dropWhile_replicate_prog (k : Nat) (r : List EKind) :
    List.dropWhile isProgKind (List.replicate k EKind.progress ++ r) =
      List.dropWhile isProgKind r := by
  induction k with
  | zero => rfl
  | succ n ih => simp [List.replicate_succ, List.dropWhile_cons, isProgKind, ih]

theorem patternOk_shape (k : Nat) (tk : EKind) (rest : List EKind)
    (htk : isTermKind tk = true)
    (hrest : rest = [tk] ∨ rest = [EKind.statusChanged, tk]) :
    patternOk (EKind.added :: (List.replicate k EKind.progress ++ rest)) = true := by
  show patternAfterProgress
    ((List.replicate k EKind.progress ++ rest).dropWhile isProgKind) = true
  rw [dropWhile_replicate_prog]
  rcases hrest with rfl | rfl <;> cases tk <;> revert htk <;> decide

theorem worker_split (dlid : Nat) (script : FetchScript) (c : Bool) :
    ∃ e, download_worker dlid script c = (runHooks dlid script.ticks).1 ++ [e] ∧
      isTermKind (eventKind e) = true := by
  unfold download_worker
  cases hr : (runHooks dlid script.ticks).2 with
  | some m =>
    refine ⟨handler_event dlid m c, by simp [hr], ?_⟩
    have h := handler_event_terminal dlid m c
    unfold isTerminalEvent at h
    exact h
  | none =>
    cases ho : script.outcome with
    | success fp => exact ⟨Event.done dlid fp, by simp [hr, ho], rfl⟩
    | error m =>
      refine ⟨handler_event dlid m c, by simp [hr, ho], ?_⟩
      have h := handler_event_terminal dlid m c
      unfold isTerminalEvent at h
      exact h

/-- Claim C8 counterexample: when the fetcher reports a `finished`
notification before a `downloading` one (as yt-dlp does between fragments),
the published kinds are `Added, StatusChanged, Progress, Completed`, which
is not a subsequence of
`Added, Progress*, StatusChanged?, (Completed | Failed | Cancelled)`. -/
theorem event_pattern_cex :
    patternOk ((Event.add 9 "t" :: download_worker 9
        ⟨[(⟨"finished", none, none, 0, "", none⟩, false),
          (⟨"downloading", some 100, none, 50, "", none⟩, false)],
         FetchOutcome.success "/tmp/f.mp4"⟩ false).map eventKind) = false := by
  decide

/-- Claim C8 amended: for fetch scripts in which every `downloading`
notification precedes the (at most one) `finished` notification, the
event kinds for a job — the `add` published at submission followed by the
worker's events in queue order — do form a subsequence of
`Added, Progress*, StatusChanged?, (Completed | Failed | Cancelled)`. -/
theorem event_pattern_wellformed (dlid : Nat) (title : String)
    (a b : List (HookDict × Bool)) (out : FetchOutcome) (c : Bool)
    (ha : ∀ p ∈ a, (p.1).status = "downloading")
    (hb : b = [] ∨ ∃ p, b = [p] ∧ (p.1).status = "finished") :
    patternOk ((Event.add dlid title ::
      download_worker dlid ⟨a ++ b, out⟩ c).map eventKind) = true := by
  obtain ⟨e, he, hke⟩ := worker_split dlid ⟨a ++ b, out⟩ c
  rw [he]
  obtain ⟨k, hk⟩ := runHooks_all_downloading dlid a ha
  have hbk := runHooks_final_tick dlid b hb
  rcases runHooks_raised_msg dlid a with hra | hra
  · have happ := runHooks_append_none dlid a b hra
    have h1 : (runHooks dlid ((⟨a ++ b, out⟩ : FetchScript).ticks)).1 =
        (runHooks dlid a).1 ++ (runHooks dlid b).1 := by
      show (runHooks dlid (a ++ b)).1 = _
      rw [happ]
    rw [h1]
    simp only [List.map_cons, List.map_append, hk]
    rcases hbk with hbk | hbk <;> rw [hbk]
    · rw [List.append_nil]
      exact patternOk_shape k (eventKind e) _ hke (Or.inl rfl)
    · rw [List.append_assoc]
      exact patternOk_shape k (eventKind e) _ hke (Or.inr rfl)
  · have happ := runHooks_append_raised dlid a b _ hra
    have h1 : (runHooks dlid ((⟨a ++ b, out⟩ : FetchScript).ticks)).1 = (runHooks dlid a).1 := by
      show (runHooks dlid (a ++ b)).1 = _
      rw [happ]
    rw [h1]
    simp only [List.map_cons, List.map_append, hk]
    exact patternOk_shape k (eventKind e) _ hke (Or.inl rfl)

/-- Witness for C8 amended: one downloading tick, one final finished tick,
then success. -/
theorem event_pattern_wellformed_witness :
    patternOk ((Event.add 5 "clip" ::
      download_worker 5
        ⟨[(⟨"downloading", some 200, none, 120, "", none⟩, false)] ++
          [(⟨"finished", none, none, 200, "", none⟩, false)],
         FetchOutcome.success "/tmp/clip.mp4"⟩ false).map eventKind) = true :=
  event_pattern_wellformed 5 "clip"
    [(⟨"downloading", some 200, none, 120, "", none⟩, false)]
    [(⟨"finished", none, none, 200, "", none⟩, false)]
    (FetchOutcome.success "/tmp/clip.mp4") false
    (by decide)
    (Or.inr ⟨(⟨"finished", none, none, 200, "", none⟩, false), rfl, rfl⟩)

/-! ### C9 -/

/-- Claim C9 counterexample: the download path of main.py is not
URL-shape-agnostic — with the same fetcher outcome, a YouTube-shaped URL
is rejected upfront while any other URL succeeds. -/
theorem youtube_url_shape_cex :
    download_video_yt_dlp "https://www.youtube.com/watch?v=abc"
        (FetchResult2.path "/tmp/v.mp4") =
      (none, ["فشل: التحميل من يوتيوب غير مسموح به في هذه النسخة."]) ∧
    download_video_yt_dlp "https://example.com/v.mp4"
        (FetchResult2.path "/tmp/v.mp4") =
      (some "/tmp/v.mp4", ["جاري التحضير للتحميل...", "اكتمل التحميل."]) := by
  decide

/-- Claim C9 amended: the desktop orchestrator's submission path only
checks non-emptiness, but main.py's `download_video_yt_dlp` inspects the
URL shape: any URL containing `youtube.com` or `youtu.be` is rejected with
a failure message before the fetcher is consulted — the result does not
depend on the fetcher outcome at all. -/
theorem youtube_rejected_amended (url : String) (f f2 : FetchResult2)
    (h : is_youtube_url url = true) :
    (download_video_yt_dlp url f).1 = none ∧
    download_video_yt_dlp url f = download_video_yt_dlp url f2 ∧
    download_video_yt_dlp url f =
      (none, ["فشل: التحميل من يوتيوب غير مسموح به في هذه النسخة."]) := by
  refine ⟨?_, ?_, ?_⟩ <;> simp [download_video_yt_dlp, YOUTUBE_ALLOWED, h]

/-- Witness for C9 amended: a `youtu.be` short link is rejected even when
the fetcher would have produced a file. -/
theorem youtube_rejected_amended_witness :
    (download_video_yt_dlp "https://youtu.be/xyz" (FetchResult2.path "/tmp/x.mp4")).1 = none ∧
    download_video_yt_dlp "https://youtu.be/xyz" (FetchResult2.path "/tmp/x.mp4") =
      download_video_yt_dlp "https://youtu.be/xyz" (FetchResult2.downloadError "e") ∧
    download_video_yt_dlp "https://youtu.be/xyz" (FetchResult2.path "/tmp/x.mp4") =
      (none, ["فشل: التحميل من يوتيوب غير مسموح به في هذه النسخة."]) :=
  youtube_rejected_amended "https://youtu.be/xyz" (FetchResult2.path "/tmp/x.mp4")
    (FetchResult2.downloadError "e") (by decide)

end SaverX
